import Mathlib

/-!
Shallow embedding of the activity invocation layer of the cadence Go client
(`client/cadence/activity.go` and the package-private activity support file).

Go pointer sharing is modelled with an explicit heap: a list of
`executeActivityParameters` records, addressed by index.  A context value is a
record of the two context bindings this layer uses (`activityOptions`, which
stores a heap address, and `activityEnv`).  Go panics are modelled by explicit
outcome types, Go `error` results by `Option String` / `Except String`.
-/

namespace Cadence

/-- `ActivityType` identifies an activity type (`activity.go`). -/
structure ActivityType where
  Name : String
deriving DecidableEq, Repr

/-- `WorkflowExecution` identifies the owning workflow instance. -/
structure WorkflowExecution where
  ID : String
  RunID : String
deriving DecidableEq, Repr

/-- `ActivityInfo` is the read-only snapshot returned by `GetActivityInfo`. -/
structure ActivityInfo where
  TaskToken : List Nat
  WorkflowExecution : WorkflowExecution
  ActivityID : String
  ActivityType : ActivityType
deriving DecidableEq, Repr

/-- `activityEnvironment`: the per-execution capsule bound under
`activityEnvContextKey`.  The `serviceInvoker` capability is modelled as a
function from the heartbeat payload to an optional error message (`none`
models a nil Go error); the logger is an opaque handle. -/
structure activityEnvironment where
  taskToken : List Nat
  workflowExecution : WorkflowExecution
  activityID : String
  activityType : ActivityType
  serviceInvoker : List Nat → Option String
  logger : Nat

/-- `executeActivityParameters`: the resolved invocation configuration that a
chain node owns on the heap.  `int32` fields are modelled as `Int` (the setter
functions are responsible for producing in-range values).  Defaults are the Go
zero values, so `{}` models `&executeActivityParameters\x7b\x7d`. -/
structure executeActivityParameters where
  ActivityID : Option String := none
  ActivityType : ActivityType := ⟨""⟩
  TaskListName : String := ""
  Input : List Nat := []
  ScheduleToCloseTimeoutSeconds : Int := 0
  ScheduleToStartTimeoutSeconds : Int := 0
  StartToCloseTimeoutSeconds : Int := 0
  HeartbeatTimeoutSeconds : Int := 0
  WaitForCancellation : Bool := false
deriving DecidableEq, Repr

/-- `activityOptions`: the builder of optional (nullable) fields; `none`
models a nil pointer field. -/
structure activityOptions where
  activityID : Option String := none
  taskListName : Option String := none
  scheduleToCloseTimeoutSeconds : Option Int := none
  scheduleToStartTimeoutSeconds : Option Int := none
  startToCloseTimeoutSeconds : Option Int := none
  heartbeatTimeoutSeconds : Option Int := none
  waitForCancellation : Option Bool := none
deriving DecidableEq, Repr

/-- The heap of parameter objects; a heap address is an index into the list. -/
abbrev Heap : Type := List executeActivityParameters

/-- A context value, restricted to the two bindings this layer reads:
the activity-options binding holds a heap address (a Go pointer), the
activity-env binding holds the environment capsule.  `none` models an
absent binding (`ctx.Value(key) == nil`). -/
structure Ctx where
  activityOptionsRef : Option Nat := none
  activityEnv : Option activityEnvironment := none

/-- In-place update of the heap cell at address `i` (a Go write through a
pointer). -/
def heapModify (h : Heap) (i : Nat)
    (f : executeActivityParameters → executeActivityParameters) : Heap :=
  match h, i with
  | [], _ => []
  | p :: t, 0 => f p :: t
  | p :: t, n + 1 => p :: heapModify t n f

/-- `getActivityOptions(ctx)` dereferenced against the heap: the parameters
object the context's binding points at, or `none` when no binding exists. -/
def getActivityOptions (h : Heap) (ctx : Ctx) : Option executeActivityParameters :=
  ctx.activityOptionsRef.bind fun i => h[i]?

/-- `setActivityParametersIfNotExist(ctx)`: when the context already has a
parameters binding the context is returned unchanged (the existing heap
object stays shared); otherwise a fresh zero-valued parameters object is
allocated and bound. -/
def setActivityParametersIfNotExist (h : Heap) (ctx : Ctx) : Heap × Ctx :=
  match ctx.activityOptionsRef with
  | some _ => (h, ctx)
  | none => (h ++ [{}], { ctx with activityOptionsRef := some h.length })

/-- A write through the context's parameters pointer
(`getActivityOptions(ctx1).Field = v` in the Go setters). -/
def modifyActivityOptions (h : Heap) (ctx : Ctx)
    (f : executeActivityParameters → executeActivityParameters) : Heap :=
  match ctx.activityOptionsRef with
  | some i => heapModify h i f
  | none => h

/-- Wrap an integer into the value range of Go `int32`. -/
def toInt32 (x : Int) : Int :=
  (x + 2147483648) % 4294967296 - 2147483648

/-- Bit length of a natural number; the first argument is recursion fuel
bounding the number of halvings. -/
def bitLenAux : Nat → Nat → Nat
  | 0, _ => 0
  | fuel + 1, n => if n = 0 then 0 else bitLenAux fuel (n / 2) + 1

/-- Bit length of a natural number: `0` for `0`, otherwise the unique `k`
with `2 ^ (k - 1) ≤ n < 2 ^ k`. -/
def bitLen (n : Nat) : Nat := bitLenAux n n

/-- Round a rational to the nearest integer, ties going to the even integer
(the IEEE-754 default rounding direction used by Go float64 arithmetic). -/
def roundHalfEven (r : ℚ) : ℤ :=
  if r - ⌊r⌋ < 1 / 2 then ⌊r⌋
  else if 1 / 2 < r - ⌊r⌋ then ⌊r⌋ + 1
  else if ⌊r⌋ % 2 = 0 then ⌊r⌋ else ⌊r⌋ + 1

/-- Binade exponent of a positive rational: the `e` with
`2 ^ (e - 1) ≤ q < 2 ^ e`, computed from the bit lengths of the numerator
and the denominator. -/
def floatExp (q : ℚ) : ℤ :=
  let e0 : ℤ := (bitLen q.num.natAbs : ℤ) - (bitLen q.den : ℤ)
  if q < 2 ^ e0 then e0 else e0 + 1

/-- Round a positive rational to the nearest value with 53 significant bits
(a binary64 value), ties to even. -/
def roundPos (q : ℚ) : ℚ :=
  (roundHalfEven (q * 2 ^ (53 - floatExp q)) : ℚ) * 2 ^ (floatExp q - 53)

/-- Round a rational to the nearest binary64 value, ties to even.  This is
exact IEEE-754 binary64 rounding in the normal range; the values produced by
`Duration.Seconds` (magnitude below `2 ^ 35`, and above `2 ^ -30` when
nonzero) never reach the subnormal or overflow ranges. -/
def roundDouble (q : ℚ) : ℚ :=
  if q = 0 then 0 else if 0 < q then roundPos q else -roundPos (-q)

/-- Truncation of a rational toward zero, as in a Go float-to-int
conversion. -/
def ratTrunc (x : ℚ) : ℤ :=
  if 0 ≤ x then ⌊x⌋ else -⌊-x⌋

/-- Models `d.Seconds()` for a `time.Duration` of `d` nanoseconds:
`float64(sec) + float64(nsec)/1e9` with `sec`, `nsec` the truncated quotient
and remainder of `d` by `1e9`, and every float64 conversion and operation
rounding to nearest, ties to even. -/
def goSeconds (d : Int) : ℚ :=
  let sec := d.tdiv 1000000000
  let nsec := d.tmod 1000000000
  roundDouble (roundDouble (sec : ℚ) +
    roundDouble (roundDouble (nsec : ℚ) / 1000000000))

/-- Models `int32(d.Seconds())`: the float64 seconds value truncated toward
zero (Go leaves the out-of-range float-to-int conversion
implementation-defined; it is modelled here as wrapping). -/
def durationToInt32Seconds (d : Int) : Int :=
  toInt32 (ratTrunc (goSeconds d))

/-- `WithTaskList(ctx, name)` (`activity.go`). -/
def WithTaskList (h : Heap) (ctx : Ctx) (name : String) : Heap × Ctx :=
  let s := setActivityParametersIfNotExist h ctx
  (modifyActivityOptions s.1 s.2 (fun p => { p with TaskListName := name }), s.2)

/-- `WithScheduleToCloseTimeout(ctx, d)` (`activity.go`). -/
def WithScheduleToCloseTimeout (h : Heap) (ctx : Ctx) (d : Int) : Heap × Ctx :=
  let s := setActivityParametersIfNotExist h ctx
  (modifyActivityOptions s.1 s.2
    (fun p => { p with ScheduleToCloseTimeoutSeconds := durationToInt32Seconds d }), s.2)

/-- `WithScheduleToStartTimeout(ctx, d)` (`activity.go`). -/
def WithScheduleToStartTimeout (h : Heap) (ctx : Ctx) (d : Int) : Heap × Ctx :=
  let s := setActivityParametersIfNotExist h ctx
  (modifyActivityOptions s.1 s.2
    (fun p => { p with ScheduleToStartTimeoutSeconds := durationToInt32Seconds d }), s.2)

/-- `WithStartToCloseTimeout(ctx, d)` (`activity.go`). -/
def WithStartToCloseTimeout (h : Heap) (ctx : Ctx) (d : Int) : Heap × Ctx :=
  let s := setActivityParametersIfNotExist h ctx
  (modifyActivityOptions s.1 s.2
    (fun p => { p with StartToCloseTimeoutSeconds := durationToInt32Seconds d }), s.2)

/-- `WithHeartbeatTimeout(ctx, d)` (`activity.go`). -/
def WithHeartbeatTimeout (h : Heap) (ctx : Ctx) (d : Int) : Heap × Ctx :=
  let s := setActivityParametersIfNotExist h ctx
  (modifyActivityOptions s.1 s.2
    (fun p => { p with HeartbeatTimeoutSeconds := durationToInt32Seconds d }), s.2)

/-- `WithWaitForCancellation(ctx, wait)` (`activity.go`). -/
def WithWaitForCancellation (h : Heap) (ctx : Ctx) (wait : Bool) : Heap × Ctx :=
  let s := setActivityParametersIfNotExist h ctx
  (modifyActivityOptions s.1 s.2 (fun p => { p with WaitForCancellation := wait }), s.2)

/-- The field-by-field overlay performed by the body of
`WithActivityOptions(ctx, options)` on the accumulated parameters object:
each `if ao.field != nil { eap.Field = *ao.field }` statement in order. -/
def applyActivityOptions (ao : activityOptions)
    (eap : executeActivityParameters) : executeActivityParameters :=
  let eap := match ao.taskListName with
    | some v => { eap with TaskListName := v }
    | none => eap
  let eap := match ao.scheduleToCloseTimeoutSeconds with
    | some v => { eap with ScheduleToCloseTimeoutSeconds := v }
    | none => eap
  let eap := match ao.startToCloseTimeoutSeconds with
    | some v => { eap with StartToCloseTimeoutSeconds := v }
    | none => eap
  let eap := match ao.scheduleToStartTimeoutSeconds with
    | some v => { eap with ScheduleToStartTimeoutSeconds := v }
    | none => eap
  let eap := match ao.heartbeatTimeoutSeconds with
    | some v => { eap with HeartbeatTimeoutSeconds := v }
    | none => eap
  let eap := match ao.waitForCancellation with
    | some v => { eap with WaitForCancellation := v }
    | none => eap
  match ao.activityID with
  | some v => { eap with ActivityID := some v }
  | none => eap

/-- `WithActivityOptions(ctx, options)` (`activity.go`): lazily bind a
parameters object, then overlay every non-nil builder field onto it. -/
def WithActivityOptions (h : Heap) (ctx : Ctx) (ao : activityOptions) : Heap × Ctx :=
  let s := setActivityParametersIfNotExist h ctx
  (modifyActivityOptions s.1 s.2 (fun eap => applyActivityOptions ao eap), s.2)

/-- Modelled from the spec: the value of `errActivityParamsBadRequest`, which
is declared outside the supplied sources; the spec describes the absence
error as "task list/parameters never configured". -/
def errActivityParamsBadRequest : String :=
  "missing activity parameters: the task list and parameters were never configured"

/-- `getValidatedActivityOptions(ctx)` (package-private file, lines 97-113). -/
def getValidatedActivityOptions (h : Heap) (ctx : Ctx) :
    Except String executeActivityParameters :=
  match getActivityOptions h ctx with
  | none => .error errActivityParamsBadRequest
  | some p =>
    if p.ScheduleToStartTimeoutSeconds ≤ 0 then
      .error "missing or negative ScheduleToStartTimeoutSeconds"
    else if p.ScheduleToCloseTimeoutSeconds ≤ 0 then
      .error "missing or negative ScheduleToCloseTimeoutSeconds"
    else if p.StartToCloseTimeoutSeconds ≤ 0 then
      .error "missing or negative StartToCloseTimeoutSeconds"
    else
      .ok p

/-- `(*activityOptions).WithTaskList` builder method. -/
def activityOptions.WithTaskList (ab : activityOptions) (name : String) : activityOptions :=
  { ab with taskListName := some name }

/-- `(*activityOptions).WithScheduleToCloseTimeout` builder method. -/
def activityOptions.WithScheduleToCloseTimeout (ab : activityOptions) (d : Int) : activityOptions :=
  { ab with scheduleToCloseTimeoutSeconds := some (durationToInt32Seconds d) }

/-- `(*activityOptions).WithScheduleToStartTimeout` builder method. -/
def activityOptions.WithScheduleToStartTimeout (ab : activityOptions) (d : Int) : activityOptions :=
  { ab with scheduleToStartTimeoutSeconds := some (durationToInt32Seconds d) }

/-- `(*activityOptions).WithStartToCloseTimeout` builder method. -/
def activityOptions.WithStartToCloseTimeout (ab : activityOptions) (d : Int) : activityOptions :=
  { ab with startToCloseTimeoutSeconds := some (durationToInt32Seconds d) }

/-- `(*activityOptions).WithHeartbeatTimeout` builder method. -/
def activityOptions.WithHeartbeatTimeout (ab : activityOptions) (d : Int) : activityOptions :=
  { ab with heartbeatTimeoutSeconds := some (durationToInt32Seconds d) }

/-- `(*activityOptions).WithWaitForCancellation` builder method. -/
def activityOptions.WithWaitForCancellation (ab : activityOptions) (wait : Bool) : activityOptions :=
  { ab with waitForCancellation := some wait }

/-- `(*activityOptions).WithActivityID` builder method. -/
def activityOptions.WithActivityID (ab : activityOptions) (activityID : String) : activityOptions :=
  { ab with activityID := some activityID }

/-- A model of runtime type descriptors as used by the reflective validator:
the two context flavors, a few primitive types, and arbitrary named types. -/
inductive GoType where
  | goContext
  | workflowContext
  | tInt
  | tString
  | tBool
  | named (n : Nat)
deriving DecidableEq, Repr

/-- A printable name for a type, used inside error messages. -/
def goTypeName : GoType → String
  | .goContext => "context.Context"
  | .workflowContext => "cadence.Context"
  | .tInt => "int"
  | .tString => "string"
  | .tBool => "bool"
  | .named n => "type" ++ toString n

/-- `isActivityContext(t)`: whether `t` implements `context.Context`.  In this
model only the `goContext` flavor does (the workflow `Context` interface does
not implement `context.Context`). -/
def T.isActivityContext (t : GoType) : Bool :=
  t = GoType.goContext

/-- Modelled from the spec: `isWorkflowContext` is declared outside the
supplied sources; the spec says the first parameter is recognized when "its
declared type matches the expected context-capability type" of the workflow
flavor. -/
def T.isWorkflowContext (t : GoType) : Bool :=
  t = GoType.workflowContext

/-- Runtime assignability between type descriptors
(`reflect.Type.AssignableTo`): in this model a runtime type is assignable
exactly to itself. -/
def assignableTo (arg decl : GoType) : Bool :=
  arg = decl

/-- The value handed to `validateFunctionArgs` as `f interface\x7b\x7d`:
either a non-function value of some type, or a function with a name and a
list of declared parameter types. -/
inductive GoFuncVal where
  | notFunc (t : GoType)
  | fn (name : String) (params : List GoType)
deriving DecidableEq, Repr

/-- Error text of the non-function branch of `validateFunctionArgs`. -/
def notAFunctionError (t : GoType) : String :=
  "Provided type: " ++ goTypeName t ++ " is not a function type"

/-- Error text of the arity branch of `validateFunctionArgs`. -/
def expectedArgsError (expected : Nat) (fnName : String) (found : Nat) : String :=
  "expected " ++ toString expected ++ " args for function: " ++ fnName
    ++ " but found " ++ toString found

/-- Error text of the assignability branch of `validateFunctionArgs`. -/
def cannotAssignError (position : Nat) (argType declType : GoType) : String :=
  "cannot assign function argument: " ++ toString position ++ " from type: "
    ++ goTypeName argType ++ " to type: " ++ goTypeName declType

/-- The `fnArgIndex` computed at the top of `validateFunctionArgs`: two
sequential conditional increments, one per context flavor. -/
def ctxSkip (params : List GoType) (isWorkflow : Bool) : Nat :=
  match params with
  | [] => 0
  | p0 :: _ =>
    (if isWorkflow && T.isWorkflowContext p0 then 1 else 0) +
    (if !isWorkflow && T.isActivityContext p0 then 1 else 0)

/-- The argument-checking loop of `validateFunctionArgs`: walk the remaining
declared parameter types against the provided argument types, reporting the
first non-assignable pair at its 1-based position in the full declared
list. -/
def checkArgs (declared args : List GoType) (fnArgIndex : Nat) : Except String Unit :=
  match declared, args with
  | [], _ => .ok ()
  | _ :: _, [] => .ok ()
  | d :: ds, a :: rest =>
    if assignableTo a d then checkArgs ds rest (fnArgIndex + 1)
    else .error (cannotAssignError (fnArgIndex + 1) a d)

/-- `validateFunctionArgs(f, args, isWorkflow)` (package-private file, lines
115-152). -/
def validateFunctionArgs (f : GoFuncVal) (args : List GoType) (isWorkflow : Bool) :
    Except String Unit :=
  match f with
  | .notFunc t => .error (notAFunctionError t)
  | .fn fnName params =>
    let fnArgIndex := ctxSkip params isWorkflow
    if params.length - fnArgIndex ≠ args.length then
      .error (expectedArgsError (params.length - fnArgIndex) fnName args.length)
    else
      checkArgs (params.drop fnArgIndex) args fnArgIndex

/-- A runtime value as inspected by `validateFunctionAndGetResults`:
whether it is nil, the error message when its dynamic type implements
`error`, and an opaque payload used for printing. -/
structure GoVal where
  isNil : Bool
  asError : Option String
  payload : Nat
deriving DecidableEq, Repr

/-- Error text of the result-arity branch of `validateFunctionAndGetResults`. -/
def resultCountError (fnName : String) (resultSize : Nat) : String :=
  "The function: " ++ fnName ++ " signature returns " ++ toString resultSize
    ++ " results, it is expecting to return either error or (result, error)"

/-- Error text when the final returned value is non-nil but does not
implement `error`. -/
def notErrorInterfaceError (v : GoVal) : String :=
  "Failed to parse error result as it is not of error interface: "
    ++ toString v.payload

/-- The error-parsing tail of `validateFunctionAndGetResults`: the nil check
on the last returned value followed by the `error` interface assertion. -/
def parseErrorValue (result : Option (List Nat)) (errValue : GoVal) :
    Option (List Nat) × Option String :=
  if errValue.isNil then (result, none)
  else
    match errValue.asError with
    | some msg => (result, some msg)
    | none => (none, some (notErrorInterfaceError errValue))

/-- `validateFunctionAndGetResults(f, values)` (package-private file, lines
211-245).  `encodeArg` stands for the host environment's single-value
encoder; the Go return pair `([]byte, error)` is the returned pair, with
`none` for a nil byte slice / nil error. -/
def validateFunctionAndGetResults (encodeArg : GoVal → Except String (List Nat))
    (fnName : String) (values : List GoVal) : Option (List Nat) × Option String :=
  let resultSize := values.length
  if resultSize < 1 ∨ resultSize > 2 then
    (none, some (resultCountError fnName resultSize))
  else
    match values with
    | [] => (none, some (resultCountError fnName 0))
    | [errValue] => parseErrorValue none errValue
    | r :: errValue :: _ =>
      match encodeArg r with
      | .error e => (none, some e)
      | .ok data => parseErrorValue (some data) errValue

/-- Outcome of an operation that can terminate by a Go panic. -/
inductive PanicOr (α : Type) where
  | panicked (msg : String)
  | value (v : α)
deriving DecidableEq, Repr

/-- The panic message of `getActivityEnv` on a context with no bound
environment. -/
def notAnActivityContextMsg : String :=
  "getActivityEnv: Not an activity context"

/-- `getActivityEnv(ctx)` (package-private file, lines 81-87): panics when
the context has no activity environment bound. -/
def getActivityEnv (ctx : Ctx) : PanicOr activityEnvironment :=
  match ctx.activityEnv with
  | none => .panicked notAnActivityContextMsg
  | some env => .value env

/-- `GetActivityInfo(ctx)` (`activity.go`, lines 46-54). -/
def GetActivityInfo (ctx : Ctx) : PanicOr ActivityInfo :=
  match getActivityEnv ctx with
  | .panicked msg => .panicked msg
  | .value env =>
    .value {
      ActivityID := env.activityID
      ActivityType := env.activityType
      TaskToken := env.taskToken
      WorkflowExecution := env.workflowExecution }

/-- `GetActivityLogger(ctx)` (`activity.go`, lines 57-60). -/
def GetActivityLogger (ctx : Ctx) : PanicOr Nat :=
  match getActivityEnv ctx with
  | .panicked msg => .panicked msg
  | .value env => .value env.logger

/-- Observable behaviour of one `RecordActivityHeartbeat` call: how it
terminated, whether the service invoker's `Heartbeat` was reached, and the
error message passed to the debug log, if any. -/
structure HeartbeatTrace where
  panickedWith : Option String
  invokerCalled : Bool
  loggedError : Option String
deriving DecidableEq, Repr

/-- `RecordActivityHeartbeat(ctx, details...)` (`activity.go`, lines 70-81).
`encodeArgs` stands for the host environment's argument encoder; an encoding
failure panics, a missing environment panics, and an invoker error is logged
at debug level and then dropped. -/
def RecordActivityHeartbeat (encodeArgs : List GoVal → Except String (List Nat))
    (ctx : Ctx) (details : List GoVal) : HeartbeatTrace :=
  match encodeArgs details with
  | .error e => { panickedWith := some e, invokerCalled := false, loggedError := none }
  | .ok data =>
    match ctx.activityEnv with
    | none =>
      { panickedWith := some notAnActivityContextMsg, invokerCalled := false,
        loggedError := none }
    | some env =>
      match env.serviceInvoker data with
      | some err =>
        { panickedWith := none, invokerCalled := true, loggedError := some err }
      | none =>
        { panickedWith := none, invokerCalled := true, loggedError := none }

/-! ### Helper lemmas -/

lemma heapModify_concat (h : Heap) (p : executeActivityParameters)
    (f : executeActivityParameters → executeActivityParameters) :
    heapModify (h ++ [p]) h.length f = h ++ [f p] := by
  induction h with
  | nil => rfl
  | cons q t ih => simp [heapModify, ih]

lemma concat_getElem_length (l : Heap) (x : executeActivityParameters) :
    (l ++ [x])[l.length]? = some x := by
  induction l with
  | nil => rfl
  | cons q t ih => simp only [List.cons_append, List.length_cons, List.getElem?_cons_succ]; exact ih

/-! ### Claim theorems -/

/-- C7: with no activity environment bound, both `GetActivityInfo` and
`GetActivityLogger` terminate in the `getActivityEnv` panic rather than an
error; with an environment bound, `GetActivityInfo` returns exactly the
environment's activity ID, activity type, task token and workflow
execution. -/
theorem getActivityEnv_panic_and_info (ctx : Ctx) :
    (ctx.activityEnv = none →
      GetActivityInfo ctx = .panicked notAnActivityContextMsg ∧
      GetActivityLogger ctx = .panicked notAnActivityContextMsg) ∧
    (∀ env : activityEnvironment, ctx.activityEnv = some env →
      GetActivityInfo ctx = .value {
        TaskToken := env.taskToken
        WorkflowExecution := env.workflowExecution
        ActivityID := env.activityID
        ActivityType := env.activityType }) := by
  constructor
  · intro h
    constructor <;> simp [GetActivityInfo, GetActivityLogger, getActivityEnv, h]
  · intro env h
    simp [GetActivityInfo, getActivityEnv, h]

/-- Witness for C7 at a concrete context with and without a bound
environment. -/
theorem getActivityEnv_panic_and_info_witness :
    GetActivityInfo
      ⟨none, some ⟨[1, 2], ⟨"wid", "rid"⟩, "a1", ⟨"demo"⟩, fun _ => none, 7⟩⟩ =
      .value ⟨[1, 2], ⟨"wid", "rid"⟩, "a1", ⟨"demo"⟩⟩ ∧
    GetActivityInfo {} = .panicked notAnActivityContextMsg :=
  ⟨(getActivityEnv_panic_and_info _).2 _ rfl,
   ((getActivityEnv_panic_and_info {}).1 rfl).1⟩

/-- C5: whenever the service invoker's `Heartbeat` returns an error,
`RecordActivityHeartbeat` logs it and returns normally: no panic, no error
surfaced to the caller. -/
theorem recordHeartbeat_swallows_invoker_error
    (encodeArgs : List GoVal → Except String (List Nat)) (ctx : Ctx)
    (details : List GoVal) (env : activityEnvironment) (data : List Nat)
    (err : String)
    (henc : encodeArgs details = .ok data)
    (henv : ctx.activityEnv = some env)
    (hinv : env.serviceInvoker data = some err) :
    RecordActivityHeartbeat encodeArgs ctx details =
      { panickedWith := none, invokerCalled := true, loggedError := some err } := by
  simp [RecordActivityHeartbeat, henc, henv, hinv]

/-- Witness for C5: a concrete invoker failure is logged and swallowed. -/
theorem recordHeartbeat_swallows_invoker_error_witness :
    RecordActivityHeartbeat (fun _ => .ok [3])
      ⟨none, some ⟨[], ⟨"w", "r"⟩, "a", ⟨"t"⟩, fun _ => some "transport down", 0⟩⟩
      [] =
      { panickedWith := none, invokerCalled := true,
        loggedError := some "transport down" } :=
  recordHeartbeat_swallows_invoker_error _ _ _ _ _ _ rfl rfl rfl

/-- C10: when encoding the heartbeat details fails,
`RecordActivityHeartbeat` panics with that error before the service invoker
is ever called. -/
theorem recordHeartbeat_panics_on_encode_failure
    (encodeArgs : List GoVal → Except String (List Nat)) (ctx : Ctx)
    (details : List GoVal) (e : String)
    (henc : encodeArgs details = .error e) :
    RecordActivityHeartbeat encodeArgs ctx details =
      { panickedWith := some e, invokerCalled := false, loggedError := none } := by
  simp [RecordActivityHeartbeat, henc]

/-- Witness for C10: a concrete encoding failure panics without reaching the
invoker. -/
theorem recordHeartbeat_panics_on_encode_failure_witness :
    RecordActivityHeartbeat (fun _ => .error "unsupported kind")
      ⟨none, some ⟨[], ⟨"w", "r"⟩, "a", ⟨"t"⟩, fun _ => some "never seen", 0⟩⟩
      [] =
      { panickedWith := some "unsupported kind", invokerCalled := false,
        loggedError := none } :=
  recordHeartbeat_panics_on_encode_failure _ _ _ _ rfl

/-- C8: `WithActivityOptions` is a partial overlay: on any accumulated
parameters object, each of the seven fields is overwritten exactly when the
corresponding builder field is non-null, and a null builder field keeps the
accumulated value; the overlay is what `WithActivityOptions` writes through
the context's parameters pointer. -/
theorem withActivityOptions_partial_overlay (ao : activityOptions)
    (eap : executeActivityParameters) :
    (applyActivityOptions ao eap).TaskListName =
      ao.taskListName.getD eap.TaskListName ∧
    (applyActivityOptions ao eap).ScheduleToCloseTimeoutSeconds =
      ao.scheduleToCloseTimeoutSeconds.getD eap.ScheduleToCloseTimeoutSeconds ∧
    (applyActivityOptions ao eap).StartToCloseTimeoutSeconds =
      ao.startToCloseTimeoutSeconds.getD eap.StartToCloseTimeoutSeconds ∧
    (applyActivityOptions ao eap).ScheduleToStartTimeoutSeconds =
      ao.scheduleToStartTimeoutSeconds.getD eap.ScheduleToStartTimeoutSeconds ∧
    (applyActivityOptions ao eap).HeartbeatTimeoutSeconds =
      ao.heartbeatTimeoutSeconds.getD eap.HeartbeatTimeoutSeconds ∧
    (applyActivityOptions ao eap).WaitForCancellation =
      ao.waitForCancellation.getD eap.WaitForCancellation ∧
    (applyActivityOptions ao eap).ActivityID =
      ao.activityID.or eap.ActivityID ∧
    getActivityOptions (WithActivityOptions [eap] ⟨some 0, none⟩ ao).1
        (WithActivityOptions [eap] ⟨some 0, none⟩ ao).2 =
      some (applyActivityOptions ao eap) := by
  obtain ⟨aid, tl, sc, ss, stc, hb, wfc⟩ := ao
  refine ⟨?_, ?_, ?_, ?_, ?_, ?_, ?_, ?_⟩ <;>
    cases aid <;> cases tl <;> cases sc <;> cases ss <;> cases stc <;>
      cases hb <;> cases wfc <;>
    simp [applyActivityOptions, WithActivityOptions, setActivityParametersIfNotExist,
      modifyActivityOptions, heapModify, getActivityOptions]

/-- Witness for C8 at one concrete builder and accumulated object. -/
theorem withActivityOptions_partial_overlay_witness :
    (applyActivityOptions { taskListName := some "tl" }
      { TaskListName := "old", ScheduleToCloseTimeoutSeconds := 9 }).TaskListName =
      (some "tl").getD "old" :=
  (withActivityOptions_partial_overlay { taskListName := some "tl" }
    { TaskListName := "old", ScheduleToCloseTimeoutSeconds := 9 }).1

/-- Counterexample to C1: starting from an empty context, after
`C1 = WithTaskList(C0, "A")` and `C2 = WithTaskList(C1, "B")`, resolving the
options of `C1` gives task list `"B"`, not `"A"`: the descendant write went
through the parameters object that `C1` and `C2` share. -/
theorem withTaskList_ancestor_counterexample :
    (getActivityOptions
        (WithTaskList (WithTaskList [] {} "A").1 (WithTaskList [] {} "A").2 "B").1
        (WithTaskList [] {} "A").2).map executeActivityParameters.TaskListName =
      some "B" ∧
    ¬ ((getActivityOptions
        (WithTaskList (WithTaskList [] {} "A").1 (WithTaskList [] {} "A").2 "B").1
        (WithTaskList [] {} "A").2).map executeActivityParameters.TaskListName =
      some "A") := by
  constructor
  · rfl
  · decide

/-- C1 (amended): for every context with no activity options bound, after
`C1 = WithTaskList(C0, a)` and `C2 = WithTaskList(C1, b)`, resolving the
options of `C2` gives task list `b` — and resolving the options of `C1` also
gives `b`, because the second setter finds `C1`'s parameters object already
bound and mutates it in place instead of allocating an overlay. -/
theorem withTaskList_shared_object_overlay (h : Heap) (c0 : Ctx) (a b : String)
    (h0 : c0.activityOptionsRef = none) :
    (getActivityOptions
        (WithTaskList (WithTaskList h c0 a).1 (WithTaskList h c0 a).2 b).1
        (WithTaskList (WithTaskList h c0 a).1 (WithTaskList h c0 a).2 b).2).map
        executeActivityParameters.TaskListName = some b ∧
    (getActivityOptions
        (WithTaskList (WithTaskList h c0 a).1 (WithTaskList h c0 a).2 b).1
        (WithTaskList h c0 a).2).map
        executeActivityParameters.TaskListName = some b := by
  have e1 : WithTaskList h c0 a =
      (h ++ [{ TaskListName := a }], { c0 with activityOptionsRef := some h.length }) := by
    simp [WithTaskList, setActivityParametersIfNotExist, h0, modifyActivityOptions,
      heapModify_concat]
  have e2 : WithTaskList (WithTaskList h c0 a).1 (WithTaskList h c0 a).2 b =
      (h ++ [{ TaskListName := b }], { c0 with activityOptionsRef := some h.length }) := by
    rw [e1]
    simp [WithTaskList, setActivityParametersIfNotExist, modifyActivityOptions,
      heapModify_concat]
  rw [e2, e1]
  simp [getActivityOptions, concat_getElem_length]

/-- Witness for the amended C1 at a concrete empty chain. -/
theorem withTaskList_shared_object_overlay_witness :
    (getActivityOptions
        (WithTaskList (WithTaskList [] {} "X").1 (WithTaskList [] {} "X").2 "Y").1
        (WithTaskList [] {} "X").2).map
        executeActivityParameters.TaskListName = some "Y" :=
  (withTaskList_shared_object_overlay [] {} "X" "Y" rfl).2

/-- C4: `getValidatedActivityOptions` errors exactly when no parameters
object is bound or one of the three mandatory timeouts is not strictly
positive; each timeout violation (in the order the code checks them) yields
the error naming that field, and on success the bound parameters object is
returned unchanged. -/
lemma getValidatedActivityOptions_of_some (h : Heap) (ctx : Ctx)
    (p : executeActivityParameters)
    (hopt : getActivityOptions h ctx = some p) :
    (p.ScheduleToStartTimeoutSeconds ≤ 0 →
      getValidatedActivityOptions h ctx =
        .error "missing or negative ScheduleToStartTimeoutSeconds") ∧
    (0 < p.ScheduleToStartTimeoutSeconds → p.ScheduleToCloseTimeoutSeconds ≤ 0 →
      getValidatedActivityOptions h ctx =
        .error "missing or negative ScheduleToCloseTimeoutSeconds") ∧
    (0 < p.ScheduleToStartTimeoutSeconds → 0 < p.ScheduleToCloseTimeoutSeconds →
      p.StartToCloseTimeoutSeconds ≤ 0 →
      getValidatedActivityOptions h ctx =
        .error "missing or negative StartToCloseTimeoutSeconds") ∧
    (0 < p.ScheduleToStartTimeoutSeconds → 0 < p.ScheduleToCloseTimeoutSeconds →
      0 < p.StartToCloseTimeoutSeconds →
      getValidatedActivityOptions h ctx = .ok p) := by
  refine ⟨fun h1 => ?_, fun h1 h2 => ?_, fun h1 h2 h3 => ?_, fun h1 h2 h3 => ?_⟩
  · simp [getValidatedActivityOptions, hopt, h1]
  · simp [getValidatedActivityOptions, hopt, not_le.mpr h1, h2]
  · simp [getValidatedActivityOptions, hopt, not_le.mpr h1, not_le.mpr h2, h3]
  · simp [getValidatedActivityOptions, hopt, not_le.mpr h1, not_le.mpr h2, not_le.mpr h3]

/-- C4: `getValidatedActivityOptions` errors exactly when no parameters
object is bound or one of the three mandatory timeouts is not strictly
positive; each timeout violation (in the order the code checks them) yields
the error naming that field, and on success the bound parameters object is
returned unchanged. -/
theorem getValidatedActivityOptions_spec (h : Heap) (ctx : Ctx) :
    ((∃ e, getValidatedActivityOptions h ctx = .error e) ↔
      getActivityOptions h ctx = none ∨
        ∃ p, getActivityOptions h ctx = some p ∧
          (p.ScheduleToStartTimeoutSeconds ≤ 0 ∨
           p.ScheduleToCloseTimeoutSeconds ≤ 0 ∨
           p.StartToCloseTimeoutSeconds ≤ 0)) ∧
    (getActivityOptions h ctx = none →
      getValidatedActivityOptions h ctx = .error errActivityParamsBadRequest) ∧
    (∀ p, getActivityOptions h ctx = some p →
      (p.ScheduleToStartTimeoutSeconds ≤ 0 →
        getValidatedActivityOptions h ctx =
          .error "missing or negative ScheduleToStartTimeoutSeconds") ∧
      (0 < p.ScheduleToStartTimeoutSeconds → p.ScheduleToCloseTimeoutSeconds ≤ 0 →
        getValidatedActivityOptions h ctx =
          .error "missing or negative ScheduleToCloseTimeoutSeconds") ∧
      (0 < p.ScheduleToStartTimeoutSeconds → 0 < p.ScheduleToCloseTimeoutSeconds →
        p.StartToCloseTimeoutSeconds ≤ 0 →
        getValidatedActivityOptions h ctx =
          .error "missing or negative StartToCloseTimeoutSeconds") ∧
      (0 < p.ScheduleToStartTimeoutSeconds → 0 < p.ScheduleToCloseTimeoutSeconds →
        0 < p.StartToCloseTimeoutSeconds →
        getValidatedActivityOptions h ctx = .ok p)) := by
  refine ⟨⟨?_, ?_⟩, ?_, ?_⟩
  · rintro ⟨e, he⟩
    rcases hopt : getActivityOptions h ctx with _ | p
    · exact Or.inl rfl
    · right
      refine ⟨p, rfl, ?_⟩
      by_contra hcon
      push_neg at hcon
      obtain ⟨n1, n2, n3⟩ := hcon
      have hok := (getValidatedActivityOptions_of_some h ctx p hopt).2.2.2 n1 n2 n3
      rw [hok] at he
      simp at he
  · intro hor
    rcases hor with hnone | ⟨p, hp, hcase⟩
    · refine ⟨errActivityParamsBadRequest, ?_⟩
      simp [getValidatedActivityOptions, hnone]
    · have hc := getValidatedActivityOptions_of_some h ctx p hp
      by_cases h1 : p.ScheduleToStartTimeoutSeconds ≤ 0
      · exact ⟨_, hc.1 h1⟩
      · by_cases h2 : p.ScheduleToCloseTimeoutSeconds ≤ 0
        · exact ⟨_, hc.2.1 (not_le.mp h1) h2⟩
        · by_cases h3 : p.StartToCloseTimeoutSeconds ≤ 0
          · exact ⟨_, hc.2.2.1 (not_le.mp h1) (not_le.mp h2) h3⟩
          · rcases hcase with hx | hx | hx
            · exact absurd hx h1
            · exact absurd hx h2
            · exact absurd hx h3
  · intro hnone
    simp [getValidatedActivityOptions, hnone]
  · intro p hp
    exact getValidatedActivityOptions_of_some h ctx p hp

/-- Witness for C4: a fully-configured chain validates to its parameters
object, and an absent binding is rejected. -/
theorem getValidatedActivityOptions_spec_witness :
    getValidatedActivityOptions
        [{ TaskListName := "q", ScheduleToCloseTimeoutSeconds := 5,
           ScheduleToStartTimeoutSeconds := 5, StartToCloseTimeoutSeconds := 5 }]
        ⟨some 0, none⟩ =
      .ok { TaskListName := "q", ScheduleToCloseTimeoutSeconds := 5,
            ScheduleToStartTimeoutSeconds := 5, StartToCloseTimeoutSeconds := 5 } ∧
    getValidatedActivityOptions [] {} = .error errActivityParamsBadRequest :=
  ⟨((getValidatedActivityOptions_spec _ _).2.2 _ (by decide)).2.2.2 (by decide)
      (by decide) (by decide),
   (getValidatedActivityOptions_spec [] {}).2.1 (by decide)⟩

lemma tdiv_billion_eq_zero (d : Int) (hlo : -1000000000 < d)
    (hhi : d < 1000000000) : d.tdiv 1000000000 = 0 := by
  rcases le_or_lt 0 d with hd | hd
  · exact Int.tdiv_eq_zero_of_lt hd hhi
  · have h2 : -d < 1000000000 := by omega
    have h0 : (0 : Int) ≤ -d := by omega
    have hz := Int.tdiv_eq_zero_of_lt h0 h2
    have hneg := Int.neg_tdiv (-d) (1000000000 : Int)
    rw [neg_neg, hz, neg_zero] at hneg
    exact hneg

lemma bitLenAux_zero (fuel : Nat) : bitLenAux fuel 0 = 0 := by
  cases fuel <;> simp [bitLenAux]

lemma bitLenAux_spec (fuel : Nat) :
    ∀ n : Nat, n ≤ fuel → n ≠ 0 →
      2 ^ (bitLenAux fuel n - 1) ≤ n ∧ n < 2 ^ bitLenAux fuel n := by
  induction fuel with
  | zero => intro n hn h0; omega
  | succ f ih =>
    intro n hn h0
    simp only [bitLenAux, if_neg h0]
    by_cases h2 : n / 2 = 0
    · have hn1 : n = 1 := by omega
      subst hn1
      rw [show (1 : Nat) / 2 = 0 from rfl, bitLenAux_zero]
      norm_num
    · obtain ⟨hlo, hhi⟩ := ih (n / 2) (by omega) h2
      have hk1 : 1 ≤ bitLenAux f (n / 2) := by
        by_contra hk
        push_neg at hk
        have hk0 : bitLenAux f (n / 2) = 0 := by omega
        rw [hk0] at hhi
        simp at hhi
        exact h2 hhi
      constructor
      · have hm : 2 ^ (bitLenAux f (n / 2) - 1) * 2 ≤ n / 2 * 2 :=
          Nat.mul_le_mul_right 2 hlo
        have hd : n / 2 * 2 ≤ n := Nat.div_mul_le_self n 2
        calc 2 ^ (bitLenAux f (n / 2) + 1 - 1)
            = 2 ^ (bitLenAux f (n / 2) - 1 + 1) := by congr 1; omega
          _ = 2 ^ (bitLenAux f (n / 2) - 1) * 2 := pow_succ 2 _
          _ ≤ n / 2 * 2 := hm
          _ ≤ n := hd
      · have hup : 2 * (n / 2) + 2 ≤ 2 * 2 ^ bitLenAux f (n / 2) := by omega
        have hn2 : n < 2 * (n / 2) + 2 := by omega
        calc n < 2 * (n / 2) + 2 := hn2
          _ ≤ 2 * 2 ^ bitLenAux f (n / 2) := hup
          _ = 2 ^ (bitLenAux f (n / 2) + 1) := by rw [pow_succ]; ring

lemma bitLen_spec (n : Nat) (h0 : n ≠ 0) :
    2 ^ (bitLen n - 1) ≤ n ∧ n < 2 ^ bitLen n :=
  bitLenAux_spec n n le_rfl h0

lemma roundHalfEven_bounds (r : ℚ) :
    r - 1 ≤ (roundHalfEven r : ℚ) ∧ (roundHalfEven r : ℚ) ≤ r + 1 := by
  have hfl : (⌊r⌋ : ℚ) ≤ r := Int.floor_le r
  have hfu : r < (⌊r⌋ : ℚ) + 1 := Int.lt_floor_add_one r
  unfold roundHalfEven
  split_ifs <;> constructor <;> push_cast <;> linarith

lemma roundHalfEven_nonneg (r : ℚ) (hr : 0 ≤ r) : 0 ≤ roundHalfEven r := by
  have h0 : 0 ≤ ⌊r⌋ := Int.floor_nonneg.mpr hr
  unfold roundHalfEven
  split_ifs <;> omega

lemma floatExp_bracket (q : ℚ) (hq : 0 < q) :
    (2 : ℚ) ^ (floatExp q - 1) ≤ q ∧ q < (2 : ℚ) ^ floatExp q := by
  have hnum : 0 < q.num := Rat.num_pos.mpr hq
  have hden : 0 < q.den := q.pos
  have ha0 : q.num.natAbs ≠ 0 := by
    simpa using hnum.ne'
  have hb0 : q.den ≠ 0 := hden.ne'
  obtain ⟨haLo, haHi⟩ := bitLen_spec q.num.natAbs ha0
  obtain ⟨hbLo, hbHi⟩ := bitLen_spec q.den hb0
  have ha1 : 1 ≤ q.num.natAbs := Nat.one_le_iff_ne_zero.mpr ha0
  have hb1 : 1 ≤ q.den := hden
  have hna1 : 1 ≤ bitLen q.num.natAbs := by
    by_contra hk
    push_neg at hk
    have : bitLen q.num.natAbs = 0 := by omega
    rw [this] at haHi
    omega
  have hnb1 : 1 ≤ bitLen q.den := by
    by_contra hk
    push_neg at hk
    have : bitLen q.den = 0 := by omega
    rw [this] at hbHi
    omega
  have hQa : ((q.num.natAbs : ℤ) : ℚ) = (q.num : ℚ) := by
    rw [Int.natAbs_of_nonneg hnum.le]
  have hBpos : (0 : ℚ) < (q.den : ℚ) := by exact_mod_cast hden
  have hq_eq : q = ((q.num.natAbs : ℤ) : ℚ) / (q.den : ℚ) := by
    rw [hQa, Rat.num_div_den]
  have FA1 : ((q.num.natAbs : ℤ) : ℚ) < (2 : ℚ) ^ (bitLen q.num.natAbs : ℤ) := by
    rw [zpow_natCast]
    exact_mod_cast haHi
  have FA2 : (2 : ℚ) ^ ((bitLen q.num.natAbs : ℤ) - 1) ≤ ((q.num.natAbs : ℤ) : ℚ) := by
    have hcast : ((bitLen q.num.natAbs - 1 : ℕ) : ℤ) = (bitLen q.num.natAbs : ℤ) - 1 := by
      omega
    rw [← hcast, zpow_natCast]
    exact_mod_cast haLo
  have FB1 : ((q.den : ℕ) : ℚ) < (2 : ℚ) ^ (bitLen q.den : ℤ) := by
    rw [zpow_natCast]
    exact_mod_cast hbHi
  have FB2 : (2 : ℚ) ^ ((bitLen q.den : ℤ) - 1) ≤ ((q.den : ℕ) : ℚ) := by
    have hcast : ((bitLen q.den - 1 : ℕ) : ℤ) = (bitLen q.den : ℤ) - 1 := by
      omega
    rw [← hcast, zpow_natCast]
    exact_mod_cast hbLo
  have hqd : q * (q.den : ℚ) = ((q.num.natAbs : ℤ) : ℚ) := by
    rw [hQa]
    calc q * (q.den : ℚ) = (q.num : ℚ) / (q.den : ℚ) * (q.den : ℚ) := by
          rw [Rat.num_div_den]
      _ = (q.num : ℚ) := div_mul_cancel₀ _ hBpos.ne'
  have key1 : q < (2 : ℚ) ^ ((bitLen q.num.natAbs : ℤ) - bitLen q.den + 1) := by
    rw [← mul_lt_mul_right hBpos, hqd]
    have step : (2 : ℚ) ^ ((bitLen q.num.natAbs : ℤ) - bitLen q.den + 1) *
        (2 : ℚ) ^ ((bitLen q.den : ℤ) - 1) = (2 : ℚ) ^ (bitLen q.num.natAbs : ℤ) := by
      rw [← zpow_add₀ (two_ne_zero : (2 : ℚ) ≠ 0)]
      congr 1
      ring
    calc ((q.num.natAbs : ℤ) : ℚ) < (2 : ℚ) ^ (bitLen q.num.natAbs : ℤ) := FA1
      _ = (2 : ℚ) ^ ((bitLen q.num.natAbs : ℤ) - bitLen q.den + 1) *
          (2 : ℚ) ^ ((bitLen q.den : ℤ) - 1) := step.symm
      _ ≤ (2 : ℚ) ^ ((bitLen q.num.natAbs : ℤ) - bitLen q.den + 1) * (q.den : ℚ) :=
          mul_le_mul_of_nonneg_left FB2 (zpow_pos (by norm_num) _).le
  have key2 : (2 : ℚ) ^ ((bitLen q.num.natAbs : ℤ) - bitLen q.den - 1) < q := by
    rw [← mul_lt_mul_right hBpos, hqd]
    have step : (2 : ℚ) ^ ((bitLen q.num.natAbs : ℤ) - bitLen q.den - 1) *
        (2 : ℚ) ^ (bitLen q.den : ℤ) = (2 : ℚ) ^ ((bitLen q.num.natAbs : ℤ) - 1) := by
      rw [← zpow_add₀ (two_ne_zero : (2 : ℚ) ≠ 0)]
      congr 1
      ring
    calc (2 : ℚ) ^ ((bitLen q.num.natAbs : ℤ) - bitLen q.den - 1) * (q.den : ℚ)
        < (2 : ℚ) ^ ((bitLen q.num.natAbs : ℤ) - bitLen q.den - 1) *
          (2 : ℚ) ^ (bitLen q.den : ℤ) :=
          mul_lt_mul_of_pos_left FB1 (zpow_pos (by norm_num) _)
      _ = (2 : ℚ) ^ ((bitLen q.num.natAbs : ℤ) - 1) := step
      _ ≤ ((q.num.natAbs : ℤ) : ℚ) := FA2
  simp only [floatExp]
  by_cases hcase : q < (2 : ℚ) ^ ((bitLen q.num.natAbs : ℤ) - bitLen q.den)
  · rw [if_pos hcase]
    exact ⟨key2.le, hcase⟩
  · rw [if_neg hcase]
    push_neg at hcase
    constructor
    · simpa using hcase
    · exact key1

lemma floatExp_le (q : ℚ) (hq : 0 < q) (k : ℤ) (hk : q < (2 : ℚ) ^ k) :
    floatExp q ≤ k := by
  by_contra h
  push_neg at h
  have h1 := (floatExp_bracket q hq).1
  have h2 : (2 : ℚ) ^ k ≤ (2 : ℚ) ^ (floatExp q - 1) :=
    zpow_le_zpow_right₀ one_le_two (by omega)
  linarith

lemma roundPos_bounds (q : ℚ) (hq : 0 < q) :
    0 ≤ roundPos q ∧ roundPos q ≤ q + (2 : ℚ) ^ (floatExp q - 53) := by
  have hz : (0 : ℚ) < (2 : ℚ) ^ (53 - floatExp q) := zpow_pos (by norm_num) _
  have hz2 : (0 : ℚ) < (2 : ℚ) ^ (floatExp q - 53) := zpow_pos (by norm_num) _
  have hr : 0 ≤ q * (2 : ℚ) ^ (53 - floatExp q) := (mul_pos hq hz).le
  obtain ⟨hb1, hb2⟩ := roundHalfEven_bounds (q * (2 : ℚ) ^ (53 - floatExp q))
  have hnn := roundHalfEven_nonneg _ hr
  unfold roundPos
  constructor
  · exact mul_nonneg (by exact_mod_cast hnn) hz2.le
  · have hle : (roundHalfEven (q * 2 ^ (53 - floatExp q)) : ℚ) * 2 ^ (floatExp q - 53) ≤
        (q * 2 ^ (53 - floatExp q) + 1) * 2 ^ (floatExp q - 53) :=
      mul_le_mul_of_nonneg_right (by linarith) hz2.le
    have hsimp : (q * (2 : ℚ) ^ (53 - floatExp q) + 1) * (2 : ℚ) ^ (floatExp q - 53) =
        q + (2 : ℚ) ^ (floatExp q - 53) := by
      have he : 53 - floatExp q + (floatExp q - 53) = 0 := by ring
      rw [add_mul, one_mul, mul_assoc, ← zpow_add₀ (two_ne_zero : (2 : ℚ) ≠ 0), he,
        zpow_zero, mul_one]
    rw [hsimp] at hle
    exact hle

lemma roundDouble_zero : roundDouble 0 = 0 := by
  simp [roundDouble]

lemma roundDouble_abs_le (q : ℚ) (k : ℤ) (h : |q| < (2 : ℚ) ^ k) :
    |roundDouble q| ≤ |q| + (2 : ℚ) ^ (k - 53) := by
  have hz : (0 : ℚ) < (2 : ℚ) ^ (k - 53) := zpow_pos (by norm_num) _
  rcases lt_trichotomy q 0 with hq | hq | hq
  · have hnq : 0 < -q := neg_pos.mpr hq
    have habs : |q| = -q := abs_of_neg hq
    have hlt : -q < (2 : ℚ) ^ k := by rwa [habs] at h
    have he := floatExp_le (-q) hnq k hlt
    obtain ⟨h0, hup⟩ := roundPos_bounds (-q) hnq
    have hmono : (2 : ℚ) ^ (floatExp (-q) - 53) ≤ (2 : ℚ) ^ (k - 53) :=
      zpow_le_zpow_right₀ one_le_two (by omega)
    have hrd : roundDouble q = -roundPos (-q) := by
      unfold roundDouble
      rw [if_neg hq.ne, if_neg (not_lt.mpr hq.le)]
    rw [hrd, abs_neg, abs_of_nonneg h0, habs]
    linarith
  · rw [hq, roundDouble_zero]
    simpa using hz.le
  · have habs : |q| = q := abs_of_pos hq
    have he := floatExp_le q hq k (habs ▸ h)
    obtain ⟨h0, hup⟩ := roundPos_bounds q hq
    have hmono : (2 : ℚ) ^ (floatExp q - 53) ≤ (2 : ℚ) ^ (k - 53) :=
      zpow_le_zpow_right₀ one_le_two (by omega)
    have hrd : roundDouble q = roundPos q := by
      unfold roundDouble
      rw [if_neg hq.ne', if_pos hq]
    rw [hrd, abs_of_nonneg h0, habs]
    linarith

lemma ratTrunc_eq_zero (x : ℚ) (h1 : -1 < x) (h2 : x < 1) : ratTrunc x = 0 := by
  unfold ratTrunc
  split_ifs with hx
  · rw [Int.floor_eq_zero_iff]
    exact Set.mem_Ico.mpr ⟨hx, h2⟩
  · push_neg at hx
    have hfloor : ⌊-x⌋ = 0 := by
      rw [Int.floor_eq_zero_iff]
      exact Set.mem_Ico.mpr ⟨by linarith, by linarith⟩
    rw [hfloor]
    simp

lemma goSeconds_abs_lt_one (d : Int) (h1 : -1000000000 < d)
    (h2 : d < 1000000000) : |goSeconds d| < 1 := by
  have hsec : d.tdiv 1000000000 = 0 := tdiv_billion_eq_zero d h1 h2
  have hadd := Int.tdiv_add_tmod d 1000000000
  have hmod : d.tmod 1000000000 = d := by
    rw [hsec] at hadd
    omega
  simp only [goSeconds]
  rw [hsec, hmod, Int.cast_zero, roundDouble_zero, zero_add]
  have e23 : (2 : ℚ) ^ ((30 : ℤ) - 53) = 1 / 8388608 := by
    norm_num
  have e53 : (2 : ℚ) ^ ((0 : ℤ) - 53) = 1 / 9007199254740992 := by
    norm_num
  have hd_abs : |(d : ℚ)| ≤ 999999999 := by
    have hd1 : (-999999999 : ℤ) ≤ d := by omega
    have hd2 : d ≤ 999999999 := by omega
    rw [abs_le]
    constructor
    · exact_mod_cast hd1
    · exact_mod_cast hd2
  have hv : |roundDouble (d : ℚ)| ≤ |(d : ℚ)| + (2 : ℚ) ^ ((30 : ℤ) - 53) :=
    roundDouble_abs_le _ 30 (by
      calc |(d : ℚ)| ≤ 999999999 := hd_abs
        _ < (2 : ℚ) ^ (30 : ℤ) := by norm_num)
  have hv1 : |roundDouble (d : ℚ)| ≤ 999999999 + 1 / 8388608 := by
    rw [e23] at hv
    linarith
  have hq0 : |roundDouble (d : ℚ) / 1000000000| ≤
      (999999999 + 1 / 8388608) / 1000000000 := by
    rw [abs_div, abs_of_pos (by norm_num : (0 : ℚ) < 1000000000)]
    exact div_le_div_of_nonneg_right hv1 (by norm_num)
  have hq0lt : |roundDouble (d : ℚ) / 1000000000| < 1 := by
    apply lt_of_le_of_lt hq0
    norm_num
  have hq1 : |roundDouble (roundDouble (d : ℚ) / 1000000000)| ≤
      |roundDouble (d : ℚ) / 1000000000| + 1 / 9007199254740992 := by
    have := roundDouble_abs_le (roundDouble (d : ℚ) / 1000000000) 0
      (by rwa [zpow_zero])
    rwa [e53] at this
  have hq1lt : |roundDouble (roundDouble (d : ℚ) / 1000000000)| < 1 := by
    calc |roundDouble (roundDouble (d : ℚ) / 1000000000)|
        ≤ |roundDouble (d : ℚ) / 1000000000| + 1 / 9007199254740992 := hq1
      _ ≤ (999999999 + 1 / 8388608) / 1000000000 + 1 / 9007199254740992 := by
          linarith
      _ < 1 := by norm_num
  have hfin : |roundDouble (roundDouble (roundDouble (d : ℚ) / 1000000000))| ≤
      |roundDouble (roundDouble (d : ℚ) / 1000000000)| + 1 / 9007199254740992 := by
    have := roundDouble_abs_le (roundDouble (roundDouble (d : ℚ) / 1000000000)) 0
      (by rwa [zpow_zero])
    rwa [e53] at this
  calc |roundDouble (roundDouble (roundDouble (d : ℚ) / 1000000000))|
      ≤ |roundDouble (roundDouble (d : ℚ) / 1000000000)| + 1 / 9007199254740992 := hfin
    _ ≤ ((999999999 + 1 / 8388608) / 1000000000 + 1 / 9007199254740992) +
        1 / 9007199254740992 := by linarith
    _ < 1 := by norm_num

section EvalRounding

set_option maxRecDepth 100000

attribute [local semireducible] Rat.mul Rat.inv Rat.add Rat.sub

/-- Counterexample to C9 as stated: at 16777216 seconds plus 999999999
nanoseconds, the float64 value `d.Seconds()` rounds up to exactly
`16777217.0`, so the setter stores 16777217 and not the whole-second
truncation 16777216 of the duration. -/
theorem timeoutSetters_truncation_counterexample :
    durationToInt32Seconds 16777216999999999 = 16777217 ∧
    Int.tdiv 16777216999999999 1000000000 = 16777216 ∧
    (activityOptions.WithScheduleToCloseTimeout {} 16777216999999999).scheduleToCloseTimeoutSeconds =
      some 16777217 ∧
    ¬ durationToInt32Seconds 16777216999999999 =
        Int.tdiv 16777216999999999 1000000000 := by
  refine ⟨by decide, by decide, by decide, by decide⟩

end EvalRounding

/-- C9 (amended): every timeout setter, in both the context-based and the
builder form, stores `int32(d.Seconds())`: the float64 seconds value of the
duration truncated toward zero on conversion (because of float64 rounding
this is not always the duration truncated to whole seconds); in particular
every duration strictly shorter than one second is stored as `0`, a value
the pre-schedule validation rejects for each of the three mandatory
timeouts. -/
theorem timeoutSetters_subsecond_zero (d : Int)
    (hs1 : -1000000000 < d) (hs2 : d < 1000000000) :
    durationToInt32Seconds d = 0 ∧
    (∀ ab : activityOptions,
      (ab.WithScheduleToCloseTimeout d).scheduleToCloseTimeoutSeconds = some 0 ∧
      (ab.WithScheduleToStartTimeout d).scheduleToStartTimeoutSeconds = some 0 ∧
      (ab.WithStartToCloseTimeout d).startToCloseTimeoutSeconds = some 0 ∧
      (ab.WithHeartbeatTimeout d).heartbeatTimeoutSeconds = some 0) ∧
    ((getActivityOptions (WithScheduleToCloseTimeout [] {} d).1
        (WithScheduleToCloseTimeout [] {} d).2).map
        executeActivityParameters.ScheduleToCloseTimeoutSeconds = some 0 ∧
     (getActivityOptions (WithScheduleToStartTimeout [] {} d).1
        (WithScheduleToStartTimeout [] {} d).2).map
        executeActivityParameters.ScheduleToStartTimeoutSeconds = some 0 ∧
     (getActivityOptions (WithStartToCloseTimeout [] {} d).1
        (WithStartToCloseTimeout [] {} d).2).map
        executeActivityParameters.StartToCloseTimeoutSeconds = some 0 ∧
     (getActivityOptions (WithHeartbeatTimeout [] {} d).1
        (WithHeartbeatTimeout [] {} d).2).map
        executeActivityParameters.HeartbeatTimeoutSeconds = some 0) ∧
    (∀ p : executeActivityParameters,
      (p.ScheduleToStartTimeoutSeconds = 0 ∨
       p.ScheduleToCloseTimeoutSeconds = 0 ∨
       p.StartToCloseTimeoutSeconds = 0) →
      ∃ e, getValidatedActivityOptions [p] ⟨some 0, none⟩ = .error e) := by
  have habs := goSeconds_abs_lt_one d hs1 hs2
  obtain ⟨hl, hr⟩ := abs_lt.mp habs
  have htrunc : ratTrunc (goSeconds d) = 0 := ratTrunc_eq_zero _ hl hr
  have hzero : durationToInt32Seconds d = 0 := by
    unfold durationToInt32Seconds
    rw [htrunc]
    decide
  refine ⟨hzero, fun ab => ⟨?_, ?_, ?_, ?_⟩, ⟨?_, ?_, ?_, ?_⟩, ?_⟩
  · simp [activityOptions.WithScheduleToCloseTimeout, hzero]
  · simp [activityOptions.WithScheduleToStartTimeout, hzero]
  · simp [activityOptions.WithStartToCloseTimeout, hzero]
  · simp [activityOptions.WithHeartbeatTimeout, hzero]
  · simp [WithScheduleToCloseTimeout, setActivityParametersIfNotExist,
      modifyActivityOptions, heapModify, getActivityOptions, hzero]
  · simp [WithScheduleToStartTimeout, setActivityParametersIfNotExist,
      modifyActivityOptions, heapModify, getActivityOptions, hzero]
  · simp [WithStartToCloseTimeout, setActivityParametersIfNotExist,
      modifyActivityOptions, heapModify, getActivityOptions, hzero]
  · simp [WithHeartbeatTimeout, setActivityParametersIfNotExist,
      modifyActivityOptions, heapModify, getActivityOptions, hzero]
  · intro p hp
    have hof := getValidatedActivityOptions_of_some [p] ⟨some 0, none⟩ p rfl
    by_cases hc1 : p.ScheduleToStartTimeoutSeconds ≤ 0
    · exact ⟨_, hof.1 hc1⟩
    · by_cases hc2 : p.ScheduleToCloseTimeoutSeconds ≤ 0
      · exact ⟨_, hof.2.1 (not_le.mp hc1) hc2⟩
      · by_cases hc3 : p.StartToCloseTimeoutSeconds ≤ 0
        · exact ⟨_, hof.2.2.1 (not_le.mp hc1) (not_le.mp hc2) hc3⟩
        · exfalso
          rcases hp with hx | hx | hx
          · exact hc1 (le_of_eq hx)
          · exact hc2 (le_of_eq hx)
          · exact hc3 (le_of_eq hx)

/-- Witness for the amended C9 at the concrete sub-second duration of 5
nanoseconds. -/
theorem timeoutSetters_subsecond_zero_witness :
    durationToInt32Seconds 5 = 0 :=
  (timeoutSetters_subsecond_zero 5 (by decide) (by decide)).1

lemma checkArgs_ok_iff (declared args : List GoType) (k : Nat)
    (hlen : declared.length = args.length) :
    (checkArgs declared args k = .ok () ↔
      (args.zip declared).all (fun x => assignableTo x.1 x.2) = true) := by
  induction declared generalizing args k with
  | nil =>
    cases args with
    | nil => simp [checkArgs]
    | cons a t => simp at hlen
  | cons d ds ih =>
    cases args with
    | nil => simp at hlen
    | cons a rest =>
      have hlen2 : ds.length = rest.length := by
        simpa using hlen
      by_cases ha : assignableTo a d = true
      · simp [checkArgs, ha, ih rest (k + 1) hlen2]
      · simp [checkArgs, ha]

lemma checkArgs_first_mismatch (i : Nat) (declared args : List GoType) (k : Nat)
    (a d : GoType)
    (hi : (args.zip declared)[i]? = some (a, d))
    (hbad : assignableTo a d = false)
    (hgood : ∀ j, j < i → ∀ pr : GoType × GoType,
      (args.zip declared)[j]? = some pr → assignableTo pr.1 pr.2 = true) :
    checkArgs declared args k = .error (cannotAssignError (k + i + 1) a d) := by
  induction i generalizing declared args k with
  | zero =>
    cases declared with
    | nil => simp at hi
    | cons d0 ds =>
      cases args with
      | nil => simp at hi
      | cons a0 rest =>
        simp only [List.zip_cons_cons, List.getElem?_cons_zero,
          Option.some.injEq, Prod.mk.injEq] at hi
        obtain ⟨rfl, rfl⟩ := hi
        simp [checkArgs, hbad]
  | succ n ih =>
    cases declared with
    | nil => simp at hi
    | cons d0 ds =>
      cases args with
      | nil => simp at hi
      | cons a0 rest =>
        have h0 : assignableTo a0 d0 = true :=
          hgood 0 (Nat.succ_pos n) (a0, d0) (by simp)
        have hi2 : (rest.zip ds)[n]? = some (a, d) := by
          simpa using hi
        have hgood2 : ∀ j, j < n → ∀ pr : GoType × GoType,
            (rest.zip ds)[j]? = some pr → assignableTo pr.1 pr.2 = true := by
          intro j hj pr hpr
          refine hgood (j + 1) (by omega) pr ?_
          simpa using hpr
        have hrec := ih ds rest (k + 1) hi2 hgood2
        have harith : k + 1 + n + 1 = k + (n + 1) + 1 := by omega
        rw [harith] at hrec
        simpa [checkArgs, h0] using hrec

lemma validateFunctionArgs_ok_iff (name : String) (params args : List GoType)
    (isW : Bool) :
    validateFunctionArgs (.fn name params) args isW = .ok () ↔
      ((params.drop (ctxSkip params isW)).length = args.length ∧
       (args.zip (params.drop (ctxSkip params isW))).all
         (fun x => assignableTo x.1 x.2) = true) := by
  simp only [validateFunctionArgs]
  by_cases hlen : params.length - ctxSkip params isW = args.length
  · rw [if_neg (not_not_intro hlen)]
    have hlen2 : (params.drop (ctxSkip params isW)).length = args.length := by
      rw [List.length_drop]
      exact hlen
    rw [checkArgs_ok_iff _ _ _ hlen2]
    simp [hlen2]
  · rw [if_pos hlen]
    constructor
    · intro h
      simp at h
    · rintro ⟨h1, h2⟩
      rw [List.length_drop] at h1
      exact absurd h1 hlen

/-- C2: `validateFunctionArgs` succeeds exactly when `f` is a function whose
non-context parameter count equals the argument count and every argument's
runtime type is assignable to the declared type at its position; changing
the argument count of an accepted call always makes it fail, and the first
non-assignable position produces the error naming that (1-based) argument
index and both type names. -/
theorem validateFunctionArgs_spec (f : GoFuncVal) (args : List GoType) (isW : Bool) :
    (validateFunctionArgs f args isW = .ok () ↔
      ∃ name params, f = .fn name params ∧
        (params.drop (ctxSkip params isW)).length = args.length ∧
        (args.zip (params.drop (ctxSkip params isW))).all
          (fun x => assignableTo x.1 x.2) = true) ∧
    (∀ args2 : List GoType, validateFunctionArgs f args isW = .ok () →
      args2.length ≠ args.length →
      ¬ validateFunctionArgs f args2 isW = .ok ()) ∧
    (∀ name params i a d,
      f = .fn name params →
      (args.zip (params.drop (ctxSkip params isW)))[i]? = some (a, d) →
      assignableTo a d = false →
      (∀ j, j < i → ∀ pr : GoType × GoType,
        (args.zip (params.drop (ctxSkip params isW)))[j]? = some pr →
        assignableTo pr.1 pr.2 = true) →
      (params.drop (ctxSkip params isW)).length = args.length →
      validateFunctionArgs f args isW =
        .error (cannotAssignError (ctxSkip params isW + i + 1) a d)) := by
  refine ⟨?_, ?_, ?_⟩
  · cases f with
    | notFunc t => simp [validateFunctionArgs]
    | fn name params =>
      rw [validateFunctionArgs_ok_iff]
      constructor
      · rintro ⟨h1, h2⟩
        exact ⟨name, params, rfl, h1, h2⟩
      · rintro ⟨n, p, heq, h1, h2⟩
        cases heq
        exact ⟨h1, h2⟩
  · intro args2 hok hne hok2
    cases f with
    | notFunc t => simp [validateFunctionArgs] at hok
    | fn name params =>
      have h1 := (validateFunctionArgs_ok_iff name params args isW).mp hok
      have h2 := (validateFunctionArgs_ok_iff name params args2 isW).mp hok2
      refine hne ?_
      rw [← h2.1]
      exact h1.1
  · intro name params i a d heq hi hbad hgood hlen
    cases heq
    simp only [validateFunctionArgs]
    rw [if_neg (not_not_intro (by rw [← List.length_drop]; exact hlen))]
    exact checkArgs_first_mismatch i _ _ _ a d hi hbad hgood

/-- Witness for C2: a concrete activity signature accepting a context and an
int accepts one int argument. -/
theorem validateFunctionArgs_spec_witness :
    validateFunctionArgs (.fn "sampleActivity" [.goContext, .tInt]) [.tInt] false =
      .ok () :=
  (validateFunctionArgs_spec (.fn "sampleActivity" [.goContext, .tInt])
      [.tInt] false).1.mpr
    ⟨"sampleActivity", [.goContext, .tInt], rfl, by decide, by decide⟩

/-- C3: the first declared parameter is excluded from arity counting exactly
when it matches the expected context flavor (workflow-context when
`isWorkflow`, activity-context otherwise); a non-matching first parameter is
counted and checked like an ordinary argument. -/
theorem contextParameter_skip_spec (p0 : GoType) (rest args : List GoType)
    (name : String) (isW : Bool) :
    (ctxSkip (p0 :: rest) isW =
      if (if isW then T.isWorkflowContext p0 else T.isActivityContext p0)
      then 1 else 0) ∧
    ((if isW then T.isWorkflowContext p0 else T.isActivityContext p0) = false →
      (validateFunctionArgs (.fn name (p0 :: rest)) args isW = .ok () ↔
        args.length = rest.length + 1 ∧
        (args.zip (p0 :: rest)).all (fun x => assignableTo x.1 x.2) = true)) ∧
    ((if isW then T.isWorkflowContext p0 else T.isActivityContext p0) = true →
      (validateFunctionArgs (.fn name (p0 :: rest)) args isW = .ok () ↔
        args.length = rest.length ∧
        (args.zip rest).all (fun x => assignableTo x.1 x.2) = true)) := by
  have hskip : ctxSkip (p0 :: rest) isW =
      if (if isW then T.isWorkflowContext p0 else T.isActivityContext p0)
      then 1 else 0 := by
    cases isW <;> simp [ctxSkip]
  refine ⟨hskip, fun hmatch => ?_, fun hmatch => ?_⟩
  · have hskip0 : ctxSkip (p0 :: rest) isW = 0 := by
      rw [hskip, hmatch]
      simp
    rw [validateFunctionArgs_ok_iff, hskip0]
    simp only [List.drop_zero, List.length_cons]
    exact and_congr_left fun _ => eq_comm
  · have hskip1 : ctxSkip (p0 :: rest) isW = 1 := by
      rw [hskip, hmatch]
      simp
    rw [validateFunctionArgs_ok_iff, hskip1]
    simp only [List.drop_succ_cons, List.drop_zero, List.length_cons]
    exact and_congr_left fun _ => eq_comm

/-- Witness for C3: a matching leading context parameter is skipped, a
non-context first parameter is counted. -/
theorem contextParameter_skip_spec_witness :
    validateFunctionArgs (.fn "act" [.goContext, .tString]) [.tString] false =
      .ok () ∧
    validateFunctionArgs (.fn "plain" [.tBool]) [.tBool] false = .ok () :=
  ⟨((contextParameter_skip_spec .goContext [.tString] [.tString] "act" false).2.2
      (by decide)).mpr (by decide),
   ((contextParameter_skip_spec .tBool [] [.tBool] "plain" false).2.1
      (by decide)).mpr (by decide)⟩

/-- C6: the return-shape check accepts only one or two returned values with
an error-like last value: every value list of length 0 or more than 2 fails;
a non-nil final value that is not an error fails; otherwise the encoded
first value (for length two) is returned together with the final error value
(nil or not). -/
theorem validateFunctionAndGetResults_spec
    (encodeArg : GoVal → Except String (List Nat)) (fnName : String)
    (values : List GoVal) :
    ((values.length = 0 ∨ 2 < values.length) →
      validateFunctionAndGetResults encodeArg fnName values =
        (none, some (resultCountError fnName values.length))) ∧
    (∀ v, values = [v] →
      (v.isNil = true →
        validateFunctionAndGetResults encodeArg fnName values = (none, none)) ∧
      (∀ m, v.isNil = false → v.asError = some m →
        validateFunctionAndGetResults encodeArg fnName values = (none, some m)) ∧
      (v.isNil = false → v.asError = none →
        validateFunctionAndGetResults encodeArg fnName values =
          (none, some (notErrorInterfaceError v)))) ∧
    (∀ r v, values = [r, v] → ∀ data, encodeArg r = .ok data →
      (v.isNil = true →
        validateFunctionAndGetResults encodeArg fnName values =
          (some data, none)) ∧
      (∀ m, v.isNil = false → v.asError = some m →
        validateFunctionAndGetResults encodeArg fnName values =
          (some data, some m)) ∧
      (v.isNil = false → v.asError = none →
        validateFunctionAndGetResults encodeArg fnName values =
          (none, some (notErrorInterfaceError v)))) := by
  refine ⟨?_, ?_, ?_⟩
  · intro hlen
    rcases values with _ | ⟨a, _ | ⟨b, _ | ⟨c, t⟩⟩⟩
    · simp [validateFunctionAndGetResults]
    · simp at hlen
    · simp at hlen
    · simp only [validateFunctionAndGetResults, List.length_cons]
      rw [if_pos (Or.inr (by omega))]
  · intro v hv
    subst hv
    refine ⟨fun hnil => ?_, fun m hnil herr => ?_, fun hnil herr => ?_⟩
    · simp [validateFunctionAndGetResults, parseErrorValue, hnil]
    · simp [validateFunctionAndGetResults, parseErrorValue, hnil, herr]
    · simp [validateFunctionAndGetResults, parseErrorValue, hnil, herr]
  · intro r v hv data henc
    subst hv
    refine ⟨fun hnil => ?_, fun m hnil herr => ?_, fun hnil herr => ?_⟩
    · simp [validateFunctionAndGetResults, parseErrorValue, henc, hnil]
    · simp [validateFunctionAndGetResults, parseErrorValue, henc, hnil, herr]
    · simp [validateFunctionAndGetResults, parseErrorValue, henc, hnil, herr]

/-- Witness for C6: a `(result, nil-error)` pair yields the encoded result
and no error. -/
theorem validateFunctionAndGetResults_spec_witness :
    validateFunctionAndGetResults (fun _ => .ok [7]) "f"
      [⟨false, none, 0⟩, ⟨true, none, 1⟩] = (some [7], none) :=
  ((validateFunctionAndGetResults_spec (fun _ => .ok [7]) "f"
      [⟨false, none, 0⟩, ⟨true, none, 1⟩]).2.2 _ _ rfl [7] rfl).1 rfl

end Cadence
